import Mathlib

/-!
Shallow embedding of src/simple_cnn.py: the restart-supervised training
loop (train_cycle), the RestartCallback monitors, the stratified
train/validation splitter, the multi-output generator adapter, and the
architectural parameters of the two network builders.

Numeric conventions: metric values and thresholds are rationals; the one
place the source does floating-point arithmetic that can change an integer
result, math.floor(0.7 * n), is embedded exactly as IEEE-754 double
rounding on rationals (a double is an exact rational, so no approximation
is involved).
-/

namespace SimpleCNN

/-! ### multioutput_gen (simple_cnn.py lines 194-202) -/

/-- For x, y in gen: yield x, [y] * nb_of_outputs. -/
def multioutput_gen {α β : Type} (gen : List (α × β)) (nb_of_outputs : ℕ := 2) :
    List (α × List β) :=
  gen.map (fun p => (p.1, List.replicate nb_of_outputs p.2))

/-! ### RestartCallback (simple_cnn.py lines 205-226) -/

/-- State of one RestartCallback: configuration (check_epoch_nb, threshold
value) and the stopped flag.  The monitored metric name is abstracted away:
the per-epoch hook receives the watched metric's value directly. -/
structure RestartCallback where
  check_epoch_nb : ℕ
  value : ℚ
  stopped : Bool
deriving DecidableEq, Repr

/-- on_train_begin: self.stopped = False. -/
def on_train_begin (c : RestartCallback) : RestartCallback :=
  { c with stopped := false }

/-- on_epoch_end: if (epoch + 1) != check_epoch_nb return; if metric <= value
return; else set model.stop_training (second component of the result) and
self.stopped. -/
def on_epoch_end (c : RestartCallback) (epoch : ℕ) (metric : ℚ) :
    RestartCallback × Bool :=
  if epoch + 1 ≠ c.check_epoch_nb then (c, false)
  else if metric ≤ c.value then (c, false)
  else ({ c with stopped := true }, true)

/-! ### Network builders (simple_cnn.py lines 23-191) -/

/-- Parameters passed to build_stem_cnn_block for the stem. -/
structure StemBlock where
  filter_nb : ℕ
  filter_size : ℕ × ℕ
  strides : ℕ × ℕ
  pooling_size : ℕ × ℕ
  freeze_batch : Bool
deriving DecidableEq, Repr

/-- Parameters of one residual block (create_residual_block). -/
structure ResidualBlock where
  pooling : Bool
  freeze_batch : Bool
  filter_nb : ℕ
  filter_size : ℕ × ℕ
deriving DecidableEq, Repr

/-- create_residual_block(pooling, freeze_batch=False, filter_nb=64,
filter_size=(3, 3)). -/
def create_residual_block (pooling : Bool) (freeze_batch : Bool := false)
    (filter_nb : ℕ := 64) (filter_size : ℕ × ℕ := (3, 3)) : ResidualBlock :=
  { pooling := pooling, freeze_batch := freeze_batch,
    filter_nb := filter_nb, filter_size := filter_size }

/-- The architectural parameters of a built model: the stem configuration,
the residual blocks on the path up to the auxiliary head, the residual
blocks between the two heads, and the dropout-head parameters when present
(hidden width, dropout rate). -/
structure ModelArch where
  stem : StemBlock
  first_path : List ResidualBlock
  second_path : List ResidualBlock
  dropout_heads : Option (ℕ × ℚ)
deriving DecidableEq, Repr

/-- build_simple_cnn_model_with_dropout (lines 23-89): stem block with
64 filters, (7, 7) kernel, (4, 4) strides, (2, 2) pooling; then
nb_of_residual_blocks_in_first_path residual blocks (no pooling); aux head;
then nb_of_residual_blocks_in_second_path residual blocks; main head.
Default path lengths in the source: first = 4, second = 3. -/
def build_simple_cnn_model_with_dropout (dropout_layer : ℕ := 32)
    (dropout_rate : ℚ := ⟨1, 2, by decide, by decide⟩)
    (nb_of_residual_blocks_in_first_path : ℕ := 4)
    (nb_of_residual_blocks_in_second_path : ℕ := 3)
    (freeze_batch : Bool := false) : ModelArch :=
  { stem := { filter_nb := 64, filter_size := (7, 7), strides := (4, 4),
              pooling_size := (2, 2), freeze_batch := freeze_batch },
    first_path := List.replicate nb_of_residual_blocks_in_first_path
      (create_residual_block false freeze_batch),
    second_path := List.replicate nb_of_residual_blocks_in_second_path
      (create_residual_block false freeze_batch),
    dropout_heads := some (dropout_layer, dropout_rate) }

/-- build_simple_cnn_model (lines 146-191): same topology with plain heads;
default path lengths first = 4, second = 4. -/
def build_simple_cnn_model
    (nb_of_residual_blocks_in_first_path : ℕ := 4)
    (nb_of_residual_blocks_in_second_path : ℕ := 4) : ModelArch :=
  { stem := { filter_nb := 64, filter_size := (7, 7), strides := (4, 4),
              pooling_size := (2, 2), freeze_batch := false },
    first_path := List.replicate nb_of_residual_blocks_in_first_path
      (create_residual_block false),
    second_path := List.replicate nb_of_residual_blocks_in_second_path
      (create_residual_block false),
    dropout_heads := none }

/-! ### train_cycle constants (simple_cnn.py lines 229-237, 296-306) -/

def THRESHOLD_LOSS_VALUE_1 : ℚ := 2

/-- The source's 0.8, as the exact rational 4 / 5 (written in constructor
form so that it evaluates). -/
def THRESHOLD_LOSS_VALUE_2 : ℚ := ⟨4, 5, by decide, by decide⟩
def RESTARTER_PATIENCE_1 : ℕ := 10
def RESTARTER_PATIENCE_2 : ℕ := 100
def EPOCHS : ℕ := 100

/-- restarter_1 = RestartCallback(check_epoch_nb=10, monitor main loss,
value=2.0). -/
def restarter_1 : RestartCallback :=
  { check_epoch_nb := RESTARTER_PATIENCE_1, value := THRESHOLD_LOSS_VALUE_1,
    stopped := false }

/-- restarter_2 = RestartCallback(check_epoch_nb=100, monitor main loss,
value=0.8). -/
def restarter_2 : RestartCallback :=
  { check_epoch_nb := RESTARTER_PATIENCE_2, value := THRESHOLD_LOSS_VALUE_2,
    stopped := false }

/-! ### One fit run (model.fit_generator with the two restart callbacks) -/

/-- The callback-visible state of one fit run: the two restart callbacks,
the model's stop_training flag, and how many epochs have completed. -/
structure FitState where
  r1 : RestartCallback
  r2 : RestartCallback
  stop_training : Bool
  epochs_run : ℕ
deriving DecidableEq, Repr

/-- End of one training epoch: each restart callback's on_epoch_end runs on
the zero-based epoch index with the watched metric's value for that epoch;
either may set the model's stop_training flag. -/
def fitEpoch (metric : ℚ) (s : FitState) : FitState :=
  let p1 := on_epoch_end s.r1 s.epochs_run metric
  let p2 := on_epoch_end s.r2 s.epochs_run metric
  { r1 := p1.1, r2 := p2.1,
    stop_training := s.stop_training || p1.2 || p2.2,
    epochs_run := s.epochs_run + 1 }

/-- The epoch loop of fit: run up to the remaining epoch budget, stopping
before the next epoch once stop_training is set. -/
def fitRun (metrics : ℕ → ℚ) : ℕ → FitState → FitState
  | 0, s => s
  | n + 1, s =>
    if s.stop_training then s
    else fitRun metrics n (fitEpoch (metrics s.epochs_run) s)

/-- One Attempt: fit_generator calls on_train_begin on both callbacks
(resetting their stopped flags), clears stop_training, and runs the epoch
loop over the given budget; metrics gives the watched metric's value per
zero-based epoch. -/
def runAttempt (metrics : ℕ → ℚ) (epochs : ℕ) (r1 r2 : RestartCallback) :
    FitState :=
  fitRun metrics epochs
    { r1 := on_train_begin r1, r2 := on_train_begin r2,
      stop_training := false, epochs_run := 0 }

/-! ### The retry loop (simple_cnn.py lines 317-328) -/

/-- The loop-exit test of train_cycle, line 327:
if not restarter_1.stopped or restarter_2.stopped: break. -/
def retryExit (r1stopped r2stopped : Bool) : Bool :=
  !r1stopped || r2stopped

/-- The while-True retry loop: each iteration constructs a fresh
dropout-variant model with all defaults, runs one Attempt over the EPOCHS
budget, and exits with the current attempt index, model and fit state when
retryExit holds.  metricsOf gives the watched metric per attempt index and
epoch; fuel bounds the number of iterations unfolded (the source loop is
unbounded). -/
def train_loop (metricsOf : ℕ → ℕ → ℚ) :
    ℕ → ℕ → RestartCallback → RestartCallback →
    Option (ℕ × ModelArch × FitState)
  | 0, _, _, _ => none
  | fuel + 1, k, r1, r2 =>
    let model : ModelArch := build_simple_cnn_model_with_dropout
    let s := runAttempt (metricsOf k) EPOCHS r1 r2
    if retryExit s.r1.stopped s.r2.stopped then some (k, model, s)
    else train_loop metricsOf fuel (k + 1) s.r1 s.r2

/-! ### Class weights (simple_cnn.py lines 308-315) -/

/-- The call interface of train_cycle(train_path, step, output_dir). -/
structure TrainCycleArgs where
  train_path : String
  step : ℕ
  output_dir : String

/-- The class_weights dictionary built inside train_cycle; it does not
depend on the arguments of train_cycle. -/
def class_weights (_args : TrainCycleArgs) : List (ℕ × ℕ) :=
  [(0, 5), (1, 1), (2, 1), (3, 1), (4, 1), (5, 1), (6, 1), (7, 1)]

/-! ### Metrics file lines (simple_cnn.py lines 333-348) -/

/-- history.history of the accepted Attempt: the per-epoch series the
metrics writer reads. -/
structure History where
  loss : List ℚ
  main_output_loss : List ℚ
  aux_output_loss : List ℚ
  main_output_acc : List ℚ
  aux_output_acc : List ℚ
  val_loss : List ℚ
  val_main_output_loss : List ℚ
  val_aux_output_loss : List ℚ
  val_main_output_acc : List ℚ
  val_aux_output_acc : List ℚ

/-- One written line: the 13 comma-separated fields for epoch_nb, in the
order of the format call at lines 335-348. -/
def metricsLine (h : History) (eval_result : List ℚ) (epoch_nb : ℕ) :
    List ℚ :=
  [ (epoch_nb : ℚ) + 1,
    h.loss.getD epoch_nb 0,
    h.main_output_loss.getD epoch_nb 0,
    h.aux_output_loss.getD epoch_nb 0,
    h.main_output_acc.getD epoch_nb 0,
    h.aux_output_acc.getD epoch_nb 0,
    h.val_loss.getD epoch_nb 0,
    h.val_main_output_loss.getD epoch_nb 0,
    h.val_aux_output_loss.getD epoch_nb 0,
    h.val_main_output_acc.getD epoch_nb 0,
    h.val_aux_output_acc.getD epoch_nb 0,
    eval_result.getD 3 0,
    eval_result.getD 5 0 ]

/-- The whole metrics file: one line per epoch_nb in
range(len(history.history["loss"])). -/
def metricsFileLines (h : History) (eval_result : List ℚ) : List (List ℚ) :=
  (List.range h.loss.length).map (metricsLine h eval_result)

/-! ### Stratified splitter (simple_cnn.py lines 265-286)

The source computes math.floor(0.7 * len(value)) in double precision;
this is embedded exactly below. -/

/-- Numerator of the IEEE-754 double nearest 0.7, over 2 ^ 53. -/
def d7 : ℕ := 6305039478318694

/-- Floor of the base-2 logarithm, by fuel-bounded structural recursion
(so that it evaluates by kernel reduction); log2fd n n is the usual
floor(log2 n) for every n, since the recursion depth is log2 n. -/
def log2fd : ℕ → ℕ → ℕ
  | 0, _ => 0
  | fuel + 1, n => if n ≤ 1 then 0 else log2fd fuel (n / 2) + 1

/-- Round N / 2 ^ s to the nearest integer, ties to even. -/
def roundNearestEven (N s : ℕ) : ℕ :=
  if 2 * (N % 2 ^ s) < 2 ^ s then N / 2 ^ s
  else if 2 ^ s < 2 * (N % 2 ^ s) then N / 2 ^ s + 1
  else if N / 2 ^ s % 2 = 0 then N / 2 ^ s
  else N / 2 ^ s + 1

/-- The IEEE double product fl(0.7 * n), as an exact numerator over 2 ^ 53:
the exact product d7 * n / 2 ^ 53 rounded to 53 significant bits, nearest,
ties to even. -/
def fl07mul (n : ℕ) : ℕ :=
  if d7 * n < 2 ^ 53 then d7 * n
  else roundNearestEven (d7 * n) (log2fd (d7 * n) (d7 * n) - 52) *
    2 ^ (log2fd (d7 * n) (d7 * n) - 52)

/-- math.floor(0.7 * n) exactly as the source computes it (double
precision product, then floor). -/
def train_size (n : ℕ) : ℕ := fl07mul n / 2 ^ 53

/-- The spec's words for the per-stratum cut, for comparison with the
source's train_size: exact floor(0.7 * n). -/
def spec_train_size (n : ℕ) : ℕ := 7 * n / 10

/-- The distinct labels of ys in order of first occurrence: the iteration
order of the label_indices dictionary built at lines 267-272. -/
def label_keys (ys : List ℕ) : List ℕ :=
  ys.foldl (fun acc y => if y ∈ acc then acc else acc ++ [y]) []

/-- The ascending list of indices of ys carrying label lab: the list
label_indices[lab], which the source builds by scanning i in order. -/
def stratum (ys : List ℕ) (lab : ℕ) : List ℕ :=
  (List.range ys.length).filter (fun i => decide (ys.getD i 0 = lab))

/-- train_indices: for each label in dictionary order, the first
train_size(count) indices of its stratum (lines 274-279). -/
def train_indices (ys : List ℕ) : List ℕ :=
  (label_keys ys).flatMap
    (fun lab => (stratum ys lab).take (train_size (stratum ys lab).length))

/-- val_indices: for each label in dictionary order, the remaining indices
of its stratum (lines 280-281). -/
def val_indices (ys : List ℕ) : List ℕ :=
  (label_keys ys).flatMap
    (fun lab => (stratum ys lab).drop (train_size (stratum ys lab).length))

/-! ### Auxiliary definitions used only in statements -/

/-- The spec's words for the loop-exit condition, for comparison with
retryExit: accept only when neither monitor's triggered flag is set. -/
def spec_retryExit (r1stopped r2stopped : Bool) : Bool :=
  !r1stopped && !r2stopped

/-- Run one RestartCallback through a list of (epoch index, metric value)
observations, as a sequence of on_epoch_end calls. -/
def processSteps (c : RestartCallback) (steps : List (ℕ × ℚ)) :
    RestartCallback :=
  steps.foldl (fun a p => (on_epoch_end a p.1 p.2).1) c

/-- A one-epoch history used to instantiate statements about the metrics
file on concrete data. -/
def histExample : History :=
  { loss := [10], main_output_loss := [11], aux_output_loss := [12],
    main_output_acc := [13], aux_output_acc := [14], val_loss := [15],
    val_main_output_loss := [16], val_aux_output_loss := [17],
    val_main_output_acc := [18], val_aux_output_acc := [19] }

/-- A concrete evaluate_generator result vector (index 3 is the main-head
test accuracy, index 5 the aux-head test accuracy). -/
def evalExample : List ℚ := [0, 1, 2, 3, 4, 5]

/-! ### Helper lemmas about RestartCallback -/

theorem on_epoch_end_check_epoch_nb (c : RestartCallback) (e : ℕ) (m : ℚ) :
    (on_epoch_end c e m).1.check_epoch_nb = c.check_epoch_nb := by
  unfold on_epoch_end
  split_ifs <;> rfl

theorem on_epoch_end_threshold (c : RestartCallback) (e : ℕ) (m : ℚ) :
    (on_epoch_end c e m).1.value = c.value := by
  unfold on_epoch_end
  split_ifs <;> rfl

theorem on_epoch_end_stopped_eq (c : RestartCallback) (e : ℕ) (m : ℚ) :
    (on_epoch_end c e m).1.stopped =
      (c.stopped || (decide (e + 1 = c.check_epoch_nb) && decide (c.value < m))) := by
  unfold on_epoch_end
  split_ifs with h1 h2
  · simp [h1]
  · simp [h1, not_lt.mpr h2]
  · simp [not_not.mp h1, not_le.mp h2]

theorem processSteps_stopped_eq (steps : List (ℕ × ℚ)) :
    ∀ c : RestartCallback,
      (processSteps c steps).stopped =
        (c.stopped || steps.any (fun p =>
          decide (p.1 + 1 = c.check_epoch_nb) && decide (c.value < p.2))) := by
  induction steps with
  | nil => intro c; simp [processSteps]
  | cons p rest ih =>
    intro c
    have hstep : processSteps c (p :: rest) =
        processSteps ((on_epoch_end c p.1 p.2).1) rest := rfl
    rw [hstep, ih, on_epoch_end_stopped_eq,
      on_epoch_end_check_epoch_nb, on_epoch_end_threshold]
    simp [Bool.or_assoc]

/-! ### Helper lemmas about the stratified splitter -/

theorem label_keys_loop_mem (l : List ℕ) :
    ∀ (acc : List ℕ) (a : ℕ),
      a ∈ l.foldl (fun acc y => if y ∈ acc then acc else acc ++ [y]) acc ↔
        a ∈ acc ∨ a ∈ l := by
  induction l with
  | nil => intro acc a; simp
  | cons y t ih =>
    intro acc a
    simp only [List.foldl_cons]
    rw [ih]
    by_cases hy : y ∈ acc
    · simp only [if_pos hy, List.mem_cons]
      constructor
      · rintro (h | h)
        · exact Or.inl h
        · exact Or.inr (Or.inr h)
      · rintro (h | rfl | h)
        · exact Or.inl h
        · exact Or.inl hy
        · exact Or.inr h
    · simp only [if_neg hy, List.mem_append, List.mem_cons, List.not_mem_nil,
        or_false]
      constructor
      · rintro ((h | rfl) | h)
        · exact Or.inl h
        · exact Or.inr (Or.inl rfl)
        · exact Or.inr (Or.inr h)
      · rintro (h | rfl | h)
        · exact Or.inl (Or.inl h)
        · exact Or.inl (Or.inr rfl)
        · exact Or.inr h

theorem mem_label_keys (ys : List ℕ) (a : ℕ) :
    a ∈ label_keys ys ↔ a ∈ ys := by
  unfold label_keys
  rw [label_keys_loop_mem]
  simp

theorem label_keys_loop_nodup (l : List ℕ) :
    ∀ acc : List ℕ, acc.Nodup →
      (l.foldl (fun acc y => if y ∈ acc then acc else acc ++ [y]) acc).Nodup := by
  induction l with
  | nil => intro acc h; simpa using h
  | cons y t ih =>
    intro acc h
    simp only [List.foldl_cons]
    apply ih
    by_cases hy : y ∈ acc
    · simpa [hy] using h
    · rw [if_neg hy]
      simp only [List.nodup_append, List.nodup_singleton]
      exact ⟨h, trivial, by simpa [List.disjoint_singleton] using hy⟩

theorem label_keys_nodup (ys : List ℕ) : (label_keys ys).Nodup :=
  label_keys_loop_nodup ys [] List.nodup_nil

theorem mem_stratum (ys : List ℕ) (lab i : ℕ) :
    i ∈ stratum ys lab ↔ i < ys.length ∧ ys.getD i 0 = lab := by
  simp [stratum, List.mem_filter, List.mem_range]

theorem stratum_nodup (ys : List ℕ) (lab : ℕ) : (stratum ys lab).Nodup :=
  (List.nodup_range _).filter _

theorem roundNearestEven_le (N s : ℕ) :
    roundNearestEven N s ≤ N / 2 ^ s + 1 := by
  unfold roundNearestEven
  split_ifs <;> omega

theorem log2fd_spec : ∀ (fuel n : ℕ), 1 ≤ n → n < 2 ^ fuel →
    2 ^ log2fd fuel n ≤ n ∧ n < 2 ^ (log2fd fuel n + 1) := by
  intro fuel
  induction fuel with
  | zero => intro n h1 h2; simp at h2; omega
  | succ f ih =>
    intro n h1 h2
    simp only [log2fd]
    split_ifs with hle
    · have hn : n = 1 := by omega
      subst hn
      exact ⟨by simp, by simp⟩
    · have hh1 : 1 ≤ n / 2 := by omega
      have hh2 : n / 2 < 2 ^ f := by
        rw [pow_succ] at h2
        omega
      rcases ih (n / 2) hh1 hh2 with ⟨ha, hb⟩
      rw [pow_succ] at hb
      constructor
      · rw [pow_succ]
        omega
      · rw [pow_succ, pow_succ]
        omega

theorem fl07mul_le (n : ℕ) : fl07mul n ≤ 2 ^ 53 * n := by
  unfold fl07mul
  split_ifs with h
  · exact Nat.mul_le_mul_right n (by norm_num [d7])
  · have hbig : 2 ^ 53 ≤ d7 * n := by omega
    have hN1 : 1 ≤ d7 * n := by omega
    rcases log2fd_spec (d7 * n) (d7 * n) hN1 (Nat.lt_two_pow _) with ⟨hb, hub⟩
    have hb53 : 53 ≤ log2fd (d7 * n) (d7 * n) := by
      by_contra hlt
      push_neg at hlt
      have : 2 ^ (log2fd (d7 * n) (d7 * n) + 1) ≤ 2 ^ 53 :=
        Nat.pow_le_pow_right (by norm_num) (by omega)
      omega
    have hsplit : log2fd (d7 * n) (d7 * n) - 52 + 52 =
        log2fd (d7 * n) (d7 * n) := by omega
    have h2s : 2 ^ (log2fd (d7 * n) (d7 * n) - 52) * 2 ^ 52 ≤ d7 * n := by
      rw [← pow_add, hsplit]; exact hb
    have hr : roundNearestEven (d7 * n) (log2fd (d7 * n) (d7 * n) - 52) ≤
        d7 * n / 2 ^ (log2fd (d7 * n) (d7 * n) - 52) + 1 :=
      roundNearestEven_le _ _
    have h1 : roundNearestEven (d7 * n) (log2fd (d7 * n) (d7 * n) - 52) *
        2 ^ (log2fd (d7 * n) (d7 * n) - 52) ≤
        d7 * n + 2 ^ (log2fd (d7 * n) (d7 * n) - 52) := by
      calc roundNearestEven (d7 * n) (log2fd (d7 * n) (d7 * n) - 52) *
            2 ^ (log2fd (d7 * n) (d7 * n) - 52) ≤
          (d7 * n / 2 ^ (log2fd (d7 * n) (d7 * n) - 52) + 1) *
            2 ^ (log2fd (d7 * n) (d7 * n) - 52) :=
            Nat.mul_le_mul_right _ hr
        _ = d7 * n / 2 ^ (log2fd (d7 * n) (d7 * n) - 52) *
            2 ^ (log2fd (d7 * n) (d7 * n) - 52) +
            2 ^ (log2fd (d7 * n) (d7 * n) - 52) := by ring
        _ ≤ d7 * n + 2 ^ (log2fd (d7 * n) (d7 * n) - 52) := by
            have := Nat.div_mul_le_self (d7 * n)
              (2 ^ (log2fd (d7 * n) (d7 * n) - 52))
            omega
    have h2 : roundNearestEven (d7 * n) (log2fd (d7 * n) (d7 * n) - 52) *
        2 ^ (log2fd (d7 * n) (d7 * n) - 52) * 2 ^ 52 ≤
        d7 * n * (2 ^ 52 + 1) := by
      calc roundNearestEven (d7 * n) (log2fd (d7 * n) (d7 * n) - 52) *
            2 ^ (log2fd (d7 * n) (d7 * n) - 52) * 2 ^ 52 ≤
          (d7 * n + 2 ^ (log2fd (d7 * n) (d7 * n) - 52)) * 2 ^ 52 :=
            Nat.mul_le_mul_right _ h1
        _ = d7 * n * 2 ^ 52 +
            2 ^ (log2fd (d7 * n) (d7 * n) - 52) * 2 ^ 52 := by ring
        _ ≤ d7 * n * 2 ^ 52 + d7 * n := by omega
        _ = d7 * n * (2 ^ 52 + 1) := by ring
    have h4 : d7 * n * (2 ^ 52 + 1) ≤ 2 ^ 53 * n * 2 ^ 52 := by
      calc d7 * n * (2 ^ 52 + 1) = d7 * (2 ^ 52 + 1) * n := by ring
        _ ≤ 2 ^ 105 * n := Nat.mul_le_mul_right n (by norm_num [d7])
        _ = 2 ^ 53 * n * 2 ^ 52 := by ring
    have h5 : roundNearestEven (d7 * n) (log2fd (d7 * n) (d7 * n) - 52) *
        2 ^ (log2fd (d7 * n) (d7 * n) - 52) * 2 ^ 52 ≤
        2 ^ 53 * n * 2 ^ 52 := le_trans h2 h4
    exact Nat.le_of_mul_le_mul_right h5 (by positivity)

theorem train_size_le (n : ℕ) : train_size n ≤ n := by
  unfold train_size
  have h := Nat.div_le_div_right (c := 2 ^ 53) (fl07mul_le n)
  rwa [Nat.mul_div_cancel_left n (by positivity)] at h

theorem mem_train_indices (ys : List ℕ) (i : ℕ) :
    i ∈ train_indices ys ↔
      i < ys.length ∧
        i ∈ (stratum ys (ys.getD i 0)).take
          (train_size (stratum ys (ys.getD i 0)).length) := by
  unfold train_indices
  rw [List.mem_flatMap]
  constructor
  · rintro ⟨lab, _, hi⟩
    have hstr := List.take_subset _ _ hi
    rcases (mem_stratum ys lab i).mp hstr with ⟨hlen, hlab⟩
    rw [← hlab] at hi
    exact ⟨hlen, hi⟩
  · rintro ⟨hlen, hi⟩
    refine ⟨ys.getD i 0, ?_, hi⟩
    rw [mem_label_keys, List.getD_eq_getElem ys 0 hlen]
    exact List.getElem_mem hlen

theorem mem_val_indices (ys : List ℕ) (i : ℕ) :
    i ∈ val_indices ys ↔
      i < ys.length ∧
        i ∈ (stratum ys (ys.getD i 0)).drop
          (train_size (stratum ys (ys.getD i 0)).length) := by
  unfold val_indices
  rw [List.mem_flatMap]
  constructor
  · rintro ⟨lab, _, hi⟩
    have hstr := List.drop_subset _ _ hi
    rcases (mem_stratum ys lab i).mp hstr with ⟨hlen, hlab⟩
    rw [← hlab] at hi
    exact ⟨hlen, hi⟩
  · rintro ⟨hlen, hi⟩
    refine ⟨ys.getD i 0, ?_, hi⟩
    rw [mem_label_keys, List.getD_eq_getElem ys 0 hlen]
    exact List.getElem_mem hlen

theorem filter_flatMap_eq_of_key (g : ℕ → ℕ) (f : ℕ → List ℕ)
    (hf : ∀ k, ∀ x ∈ f k, g x = k) :
    ∀ keys : List ℕ, keys.Nodup → ∀ lab ∈ keys,
      (keys.flatMap f).filter (fun x => decide (g x = lab)) = f lab := by
  intro keys
  induction keys with
  | nil => intro _ lab hlab; simp at hlab
  | cons k ks ih =>
    intro hnd lab hlab
    rcases List.nodup_cons.mp hnd with ⟨hk, hnd2⟩
    rw [List.flatMap_cons, List.filter_append]
    rcases List.mem_cons.mp hlab with rfl | hlab2
    · have hfk : (f lab).filter (fun x => decide (g x = lab)) = f lab := by
        apply List.filter_eq_self.mpr
        intro x hx
        simp [hf lab x hx]
      have hrest : (ks.flatMap f).filter (fun x => decide (g x = lab)) = [] := by
        apply List.filter_eq_nil_iff.mpr
        intro x hx
        rcases List.mem_flatMap.mp hx with ⟨k2, hk2, hxk2⟩
        have hgx := hf k2 x hxk2
        simp only [hgx, decide_eq_true_eq]
        rintro rfl
        exact hk hk2
      rw [hfk, hrest, List.append_nil]
    · have hne : lab ≠ k := fun h => hk (h ▸ hlab2)
      have hfk : (f k).filter (fun x => decide (g x = lab)) = [] := by
        apply List.filter_eq_nil_iff.mpr
        intro x hx
        have hgx := hf k x hx
        simp only [hgx, decide_eq_true_eq]
        exact fun h => hne h.symm
      rw [hfk, ih hnd2 lab hlab2, List.nil_append]

/-! ### Claim theorems -/

/-- C1 (code evaluated at the failing input): with a metric trace whose
main-head loss is 0 at epoch 10 and 1 at epoch 100, the Attempt runs the
full 100-epoch budget with restarter_1 not triggered and restarter_2
triggered, yet the retry loop of train_cycle exits and accepts it at
attempt 0, because the source's exit test (not restarter_1.stopped or
restarter_2.stopped) is true there, while the claimed condition (neither
monitor triggered) is false. -/
theorem C1_code_at_failing_input :
    (train_loop (fun _ e => if e = 99 then 1 else 0) 2 0
        restarter_1 restarter_2).map
        (fun t => (t.1, t.2.2.r1.stopped, t.2.2.r2.stopped, t.2.2.epochs_run)) =
      some (0, false, true, 100) ∧
    retryExit false true = true ∧
    spec_retryExit false true = false := by
  refine ⟨rfl, rfl, rfl⟩

/-- C3: a restart monitor's per-epoch hook takes no action at epochs other
than its check epoch; at the check epoch it takes no action when the metric
is at most the threshold, and otherwise it sets its stopped flag and
signals the trainer to stop; over any sequence of epoch observations the
flag ends set exactly when it started set or some observation hits the
check epoch with the metric strictly above the threshold (so once set it
stays set for the rest of the attempt). -/
theorem C3_restart_monitor :
    ∀ (c : RestartCallback) (e : ℕ) (m : ℚ),
      (e + 1 ≠ c.check_epoch_nb → on_epoch_end c e m = (c, false)) ∧
      (e + 1 = c.check_epoch_nb → m ≤ c.value → on_epoch_end c e m = (c, false)) ∧
      (e + 1 = c.check_epoch_nb → c.value < m →
        on_epoch_end c e m = ({ c with stopped := true }, true)) ∧
      (∀ steps : List (ℕ × ℚ),
        (processSteps c steps).stopped =
          (c.stopped || steps.any (fun p =>
            decide (p.1 + 1 = c.check_epoch_nb) && decide (c.value < p.2)))) := by
  intro c e m
  refine ⟨?_, ?_, ?_, fun steps => processSteps_stopped_eq steps c⟩
  · intro h; simp [on_epoch_end, h]
  · intro h1 h2; simp [on_epoch_end, h1, h2]
  · intro h1 h2; simp [on_epoch_end, h1, not_le.mpr h2]

/-- Witness for C3 at a monitor with check epoch 5 and threshold 2. -/
theorem C3_restart_monitor_witness :
    on_epoch_end ⟨5, 2, false⟩ 0 3 = (⟨5, 2, false⟩, false) ∧
    on_epoch_end ⟨5, 2, false⟩ 4 1 = (⟨5, 2, false⟩, false) ∧
    on_epoch_end ⟨5, 2, false⟩ 4 3 = (⟨5, 2, true⟩, true) :=
  ⟨(C3_restart_monitor ⟨5, 2, false⟩ 0 3).1 (by decide),
   (C3_restart_monitor ⟨5, 2, false⟩ 4 1).2.1 rfl (by norm_num),
   (C3_restart_monitor ⟨5, 2, false⟩ 4 3).2.2.1 rfl (by norm_num)⟩

/-- C4: the multi-output adapter maps the k-th upstream pair (x, y) to
(x, [y, ..., y]) with exactly n copies of y, preserving order and emitting
exactly one batch per upstream batch. -/
theorem C4_multioutput_adapter :
    ∀ {α β : Type} (gen : List (α × β)) (n k : ℕ)
      (h : k < gen.length) (h2 : k < (multioutput_gen gen n).length),
      (multioutput_gen gen n).length = gen.length ∧
      (multioutput_gen gen n).get ⟨k, h2⟩ =
        ((gen.get ⟨k, h⟩).1, List.replicate n (gen.get ⟨k, h⟩).2) ∧
      ((multioutput_gen gen n).get ⟨k, h2⟩).2.length = n ∧
      (∀ b ∈ ((multioutput_gen gen n).get ⟨k, h2⟩).2, b = (gen.get ⟨k, h⟩).2) := by
  intro α β gen n k h h2
  have hlen : (multioutput_gen gen n).length = gen.length := by
    simp [multioutput_gen]
  have hget : (multioutput_gen gen n).get ⟨k, h2⟩ =
      ((gen.get ⟨k, h⟩).1, List.replicate n (gen.get ⟨k, h⟩).2) := by
    simp [multioutput_gen, List.get_map]
  refine ⟨hlen, hget, ?_, ?_⟩
  · rw [hget]; simp
  · intro b hb
    rw [hget] at hb
    exact List.eq_of_mem_replicate hb

/-- Witness for C4 on a concrete two-batch stream with n = 2. -/
theorem C4_multioutput_adapter_witness :
    (multioutput_gen [((1 : ℕ), (2 : ℕ)), (3, 4)] 2).get ⟨1, by decide⟩ =
      (3, List.replicate 2 4) :=
  (C4_multioutput_adapter [((1 : ℕ), (2 : ℕ)), (3, 4)] 2 1 (by decide)
    (by decide)).2.1

/-- C5 counterexample: in the source's defaults the dropout variant has
4 residual blocks on the first path and 3 on the second, so the claim's
exception (3 on the dropout variant's first path, 4 on its second) is
false. -/
theorem C5_counterexample :
    (build_simple_cnn_model_with_dropout : ModelArch).first_path.length = 4 ∧
    (build_simple_cnn_model_with_dropout : ModelArch).second_path.length = 3 ∧
    ¬ (build_simple_cnn_model_with_dropout : ModelArch).first_path.length = 3 ∧
    ¬ (build_simple_cnn_model_with_dropout : ModelArch).second_path.length = 4 := by
  decide

/-- C5 (amended): in the default configurations the plain builder has 4
residual blocks on each path and the dropout builder has 4 on the first
path and 3 on the second; both stems use 64 filters, a 7 by 7 kernel,
stride 4 and a 2 by 2 pool, and every residual block of either model uses
64 filters, a 3 by 3 kernel and no pooling. -/
theorem C5_default_architecture :
    ((build_simple_cnn_model : ModelArch).first_path.length = 4 ∧
      (build_simple_cnn_model : ModelArch).second_path.length = 4) ∧
    ((build_simple_cnn_model_with_dropout : ModelArch).first_path.length = 4 ∧
      (build_simple_cnn_model_with_dropout : ModelArch).second_path.length = 3) ∧
    (build_simple_cnn_model : ModelArch).stem =
      { filter_nb := 64, filter_size := (7, 7), strides := (4, 4),
        pooling_size := (2, 2), freeze_batch := false } ∧
    (build_simple_cnn_model_with_dropout : ModelArch).stem =
      { filter_nb := 64, filter_size := (7, 7), strides := (4, 4),
        pooling_size := (2, 2), freeze_batch := false } ∧
    (∀ b ∈ ((build_simple_cnn_model : ModelArch).first_path ++
        (build_simple_cnn_model : ModelArch).second_path) ++
        ((build_simple_cnn_model_with_dropout : ModelArch).first_path ++
        (build_simple_cnn_model_with_dropout : ModelArch).second_path),
      b.filter_nb = 64 ∧ b.filter_size = (3, 3) ∧ b.pooling = false) := by
  decide

/-- The e-th line of the metrics file, for e within the accepted history. -/
theorem metricsFileLines_getD (h : History) (ev : List ℚ) (e : ℕ)
    (he : e < h.loss.length) :
    (metricsFileLines h ev).getD e [] = metricsLine h ev e := by
  simp [metricsFileLines, List.getD_eq_getElem?_getD, List.getElem?_map,
    List.getElem?_range, he]

/-- C6: the persisted metrics file has exactly one line per epoch of the
accepted Attempt's history; each line has the 13 fields of metricsLine in
order (epoch number first, the ten history series, then the two held-out
test accuracies), and the last two fields are the same on every line. -/
theorem C6_metrics_file :
    ∀ (h : History) (ev : List ℚ),
      (metricsFileLines h ev).length = h.loss.length ∧
      (∀ line ∈ metricsFileLines h ev, line.length = 13) ∧
      (∀ e, e < h.loss.length →
        (metricsFileLines h ev).getD e [] = metricsLine h ev e ∧
        ((metricsFileLines h ev).getD e []).getD 0 0 = (e : ℚ) + 1 ∧
        ((metricsFileLines h ev).getD e []).getD 11 0 = ev.getD 3 0 ∧
        ((metricsFileLines h ev).getD e []).getD 12 0 = ev.getD 5 0) ∧
      (∀ l1 ∈ metricsFileLines h ev, ∀ l2 ∈ metricsFileLines h ev,
        l1.getD 11 0 = l2.getD 11 0 ∧ l1.getD 12 0 = l2.getD 12 0) := by
  intro h ev
  have hmem : ∀ l ∈ metricsFileLines h ev, ∃ e, l = metricsLine h ev e := by
    intro l hl
    rcases List.mem_map.mp hl with ⟨e, _, rfl⟩
    exact ⟨e, rfl⟩
  refine ⟨by simp [metricsFileLines], ?_, ?_, ?_⟩
  · intro line hl
    rcases hmem line hl with ⟨e, rfl⟩
    rfl
  · intro e he
    refine ⟨metricsFileLines_getD h ev e he, ?_, ?_, ?_⟩ <;>
      rw [metricsFileLines_getD h ev e he] <;> rfl
  · intro l1 h1 l2 h2
    rcases hmem l1 h1 with ⟨e1, rfl⟩
    rcases hmem l2 h2 with ⟨e2, rfl⟩
    exact ⟨rfl, rfl⟩

/-- Witness for C6 on a one-epoch history and the example evaluation
vector. -/
theorem C6_metrics_file_witness :
    (metricsFileLines histExample evalExample).length = 1 ∧
    (metricsFileLines histExample evalExample).getD 0 [] =
      metricsLine histExample evalExample 0 ∧
    ((metricsFileLines histExample evalExample).getD 0 []).getD 11 0 = 3 :=
  ⟨(C6_metrics_file histExample evalExample).1,
   ((C6_metrics_file histExample evalExample).2.2.1 0 (by decide)).1,
   by rw [((C6_metrics_file histExample evalExample).2.2.1 0
       (by decide)).2.2.1]; rfl⟩

/-- fit_generator resets both monitors before the first epoch, so an
Attempt's outcome does not depend on the stopped flags left over from a
previous Attempt. -/
theorem runAttempt_reset (m : ℕ → ℚ) (E : ℕ) (r1 r2 : RestartCallback)
    (b1 b2 : Bool) :
    runAttempt m E { r1 with stopped := b1 } { r2 with stopped := b2 } =
      runAttempt m E r1 r2 := rfl

/-- The whole retry loop is insensitive to the stopped flags its monitors
carry at entry. -/
theorem train_loop_reset (mOf : ℕ → ℕ → ℚ) :
    ∀ (fuel k : ℕ) (r1 r2 : RestartCallback) (b1 b2 : Bool),
      train_loop mOf fuel k { r1 with stopped := b1 }
          { r2 with stopped := b2 } =
        train_loop mOf fuel k r1 r2 := by
  intro fuel
  induction fuel with
  | zero => intro k r1 r2 b1 b2; rfl
  | succ n ih =>
    intro k r1 r2 b1 b2
    simp only [train_loop]
    rw [runAttempt_reset]

/-- Whatever attempt the retry loop accepts, its model is the freshly
constructed default dropout model of that iteration. -/
theorem train_loop_model_eq (mOf : ℕ → ℕ → ℚ) :
    ∀ (fuel k : ℕ) (r1 r2 : RestartCallback) (t : ℕ × ModelArch × FitState),
      train_loop mOf fuel k r1 r2 = some t →
      t.2.1 = (build_simple_cnn_model_with_dropout : ModelArch) := by
  intro fuel
  induction fuel with
  | zero => intro k r1 r2 t ht; simp [train_loop] at ht
  | succ n ih =>
    intro k r1 r2 t ht
    simp only [train_loop] at ht
    split at ht
    · cases ht; rfl
    · exact ih (k + 1) _ _ t ht

/-- C7: no state carries over between Attempts: each monitor's triggered
flag is reset to false by on_train_begin before any epoch of a new Attempt
runs (so an Attempt's result, and the whole retry loop's result, ignore the
flags left by prior Attempts), and the model of every Attempt - in
particular of the accepted one - is the freshly constructed default
dropout-variant model, never a reused one. -/
theorem C7_fresh_attempt :
    (∀ c : RestartCallback, (on_train_begin c).stopped = false) ∧
    (∀ (m : ℕ → ℚ) (E : ℕ) (r1 r2 : RestartCallback) (b1 b2 : Bool),
        runAttempt m E { r1 with stopped := b1 } { r2 with stopped := b2 } =
          runAttempt m E r1 r2) ∧
    (∀ (mOf : ℕ → ℕ → ℚ) (fuel k : ℕ) (r1 r2 : RestartCallback) (b1 b2 : Bool),
        train_loop mOf fuel k { r1 with stopped := b1 }
            { r2 with stopped := b2 } =
          train_loop mOf fuel k r1 r2) ∧
    (∀ (mOf : ℕ → ℕ → ℚ) (fuel k : ℕ) (r1 r2 : RestartCallback)
        (t : ℕ × ModelArch × FitState),
        train_loop mOf fuel k r1 r2 = some t →
        t.2.1 = (build_simple_cnn_model_with_dropout : ModelArch)) :=
  ⟨fun _ => rfl,
   runAttempt_reset,
   fun mOf fuel k r1 r2 b1 b2 => train_loop_reset mOf fuel k r1 r2 b1 b2,
   fun mOf fuel k r1 r2 t => train_loop_model_eq mOf fuel k r1 r2 t⟩

set_option maxRecDepth 8000 in
/-- Witness for C7: on a run whose metric is constantly 0 the loop accepts
attempt 0, and the accepted model is the fresh default dropout model. -/
theorem C7_fresh_attempt_witness :
    ((0, (build_simple_cnn_model_with_dropout : ModelArch),
        ({ r1 := restarter_1, r2 := restarter_2, stop_training := false,
           epochs_run := 100 } : FitState)) :
          ℕ × ModelArch × FitState).2.1 =
      (build_simple_cnn_model_with_dropout : ModelArch) :=
  C7_fresh_attempt.2.2.2 (fun _ _ => 0) 1 0 restarter_1 restarter_2 _ rfl

/-- C8: the class_weights mapping built by train_cycle assigns weight 5 to
class 0 and weight 1 to classes 1 through 7, and is the same whatever
arguments train_cycle was called with (it is not configurable through the
call interface). -/
theorem C8_class_weights_fixed :
    ∀ (a b : TrainCycleArgs),
      class_weights a = class_weights b ∧
      (class_weights a).lookup 0 = some 5 ∧
      ∀ c : ℕ, 1 ≤ c → c ≤ 7 → (class_weights a).lookup c = some 1 := by
  intro a b
  refine ⟨rfl, rfl, ?_⟩
  intro c h1 h7
  interval_cases c <;> rfl

/-- Witness for C8 at concrete arguments and class 3. -/
theorem C8_class_weights_fixed_witness :
    (class_weights ⟨String.mk [], 0, String.mk []⟩).lookup 3 = some 1 :=
  (C8_class_weights_fixed ⟨String.mk [], 0, String.mk []⟩
    ⟨String.mk [], 1, String.mk []⟩).2.2 3 (by decide) (by decide)

/-- C9: a restart monitor interprets its check epoch as 1-based: its hook
acts only when the zero-based epoch index e satisfies e + 1 =
check_epoch_nb (so the check fires after exactly check_epoch_nb completed
epochs), it does signal a stop there when the metric exceeds the
threshold, and under the 100-epoch budget the second monitor (check epoch
100) can only signal at the final epoch index 99 = EPOCHS - 1. -/
theorem C9_one_based_check_epoch :
    (∀ (c : RestartCallback) (e : ℕ) (m : ℚ),
        on_epoch_end c e m ≠ (c, false) → e + 1 = c.check_epoch_nb) ∧
    (∀ (c : RestartCallback) (e : ℕ) (m : ℚ),
        e + 1 = c.check_epoch_nb → c.value < m →
        (on_epoch_end c e m).2 = true) ∧
    (∀ (e : ℕ) (m : ℚ), e < EPOCHS →
        (on_epoch_end restarter_2 e m).2 = true → e = EPOCHS - 1) := by
  refine ⟨?_, ?_, ?_⟩
  · intro c e m hne
    by_contra h
    exact hne (by simp [on_epoch_end, h])
  · intro c e m h1 h2
    simp [on_epoch_end, h1, not_le.mpr h2]
  · intro e m _ hsig
    have he : e + 1 = restarter_2.check_epoch_nb := by
      by_contra h
      simp [on_epoch_end, h] at hsig
    have : e + 1 = 100 := he
    simp [EPOCHS]
    omega

/-- Witness for C9 at epoch index 99 with metric 1. -/
theorem C9_one_based_check_epoch_witness :
    (99 : ℕ) = EPOCHS - 1 ∧ (on_epoch_end restarter_2 99 1).2 = true :=
  ⟨C9_one_based_check_epoch.2.2 99 1 (by decide)
      (C9_one_based_check_epoch.2.1 restarter_2 99 1 (by decide)
        (by decide)),
   C9_one_based_check_epoch.2.1 restarter_2 99 1 (by decide)
     (by decide)⟩

set_option maxRecDepth 8000 in
/-- C2 counterexample: on a label array of 90 equal labels the source's
double-precision cut floor(0.7 * 90) evaluates to 62, not the exact
floor(0.7 * 90) = 63 demanded by the claim, so the per-label train count
differs from floor(0.7 x count) at this input. -/
theorem C2_counterexample :
    (train_indices (List.replicate 90 0)).length = 62 ∧
    spec_train_size 90 = 63 ∧
    (stratum (List.replicate 90 0) 0).length = 90 ∧
    (train_indices (List.replicate 90 0)).length ≠
      spec_train_size (stratum (List.replicate 90 0) 0).length := by
  refine ⟨by decide, rfl, by decide, by decide⟩

/-- C2 (amended): for every label array the splitter's train and
validation index sets are disjoint and their union is the full index set;
for each label (in first-occurrence order) the train set's indices with
that label are exactly the first train_size(count) indices of that label's
stratum in input order - where train_size is the double-precision
floor(0.7 * count) the source computes - the validation set's indices with
that label are exactly the remaining ones, and the per-label train count
equals train_size(count), with no randomization anywhere. -/
theorem C2_split_partition :
    ∀ ys : List ℕ,
      List.Disjoint (train_indices ys) (val_indices ys) ∧
      (∀ i, (i ∈ train_indices ys ∨ i ∈ val_indices ys) ↔ i < ys.length) ∧
      (∀ lab ∈ label_keys ys,
        (train_indices ys).filter (fun i => decide (ys.getD i 0 = lab)) =
          (stratum ys lab).take (train_size (stratum ys lab).length) ∧
        (val_indices ys).filter (fun i => decide (ys.getD i 0 = lab)) =
          (stratum ys lab).drop (train_size (stratum ys lab).length) ∧
        ((train_indices ys).filter
            (fun i => decide (ys.getD i 0 = lab))).length =
          train_size (stratum ys lab).length ∧
        ((train_indices ys).filter
              (fun i => decide (ys.getD i 0 = lab))).length +
            ((val_indices ys).filter
              (fun i => decide (ys.getD i 0 = lab))).length =
          (stratum ys lab).length) := by
  intro ys
  have hTake : ∀ k, ∀ x ∈ (stratum ys k).take
      (train_size (stratum ys k).length), ys.getD x 0 = k := by
    intro k x hx
    exact ((mem_stratum ys k x).mp (List.take_subset _ _ hx)).2
  have hDrop : ∀ k, ∀ x ∈ (stratum ys k).drop
      (train_size (stratum ys k).length), ys.getD x 0 = k := by
    intro k x hx
    exact ((mem_stratum ys k x).mp (List.drop_subset _ _ hx)).2
  refine ⟨?_, ?_, ?_⟩
  · intro i hT hV
    rcases (mem_train_indices ys i).mp hT with ⟨_, hTk⟩
    rcases (mem_val_indices ys i).mp hV with ⟨_, hVk⟩
    exact List.disjoint_take_drop (stratum_nodup ys (ys.getD i 0)) le_rfl
      hTk hVk
  · intro i
    constructor
    · rintro (h | h)
      · exact ((mem_train_indices ys i).mp h).1
      · exact ((mem_val_indices ys i).mp h).1
    · intro hi
      have hs : i ∈ stratum ys (ys.getD i 0) :=
        (mem_stratum _ _ _).mpr ⟨hi, rfl⟩
      rw [← List.take_append_drop
        (train_size (stratum ys (ys.getD i 0)).length)
        (stratum ys (ys.getD i 0)), List.mem_append] at hs
      rcases hs with h | h
      · exact Or.inl ((mem_train_indices ys i).mpr ⟨hi, h⟩)
      · exact Or.inr ((mem_val_indices ys i).mpr ⟨hi, h⟩)
  · intro lab hlab
    have hT := filter_flatMap_eq_of_key (fun i => ys.getD i 0)
      (fun k => (stratum ys k).take (train_size (stratum ys k).length))
      hTake (label_keys ys) (label_keys_nodup ys) lab hlab
    have hV := filter_flatMap_eq_of_key (fun i => ys.getD i 0)
      (fun k => (stratum ys k).drop (train_size (stratum ys k).length))
      hDrop (label_keys ys) (label_keys_nodup ys) lab hlab
    have hlen : ((stratum ys lab).take
        (train_size (stratum ys lab).length)).length =
        train_size (stratum ys lab).length := by
      rw [List.length_take]
      exact Nat.min_eq_left (train_size_le _)
    refine ⟨hT, hV, ?_, ?_⟩
    · rw [show (train_indices ys).filter
          (fun i => decide (ys.getD i 0 = lab)) =
          (stratum ys lab).take (train_size (stratum ys lab).length)
        from hT, hlen]
    · rw [show (train_indices ys).filter
          (fun i => decide (ys.getD i 0 = lab)) =
          (stratum ys lab).take (train_size (stratum ys lab).length)
        from hT,
        show (val_indices ys).filter
          (fun i => decide (ys.getD i 0 = lab)) =
          (stratum ys lab).drop (train_size (stratum ys lab).length)
        from hV, hlen, List.length_drop]
      have := train_size_le (stratum ys lab).length
      omega

/-- Witness for C2 on the label array [0, 0, 1]. -/
theorem C2_split_partition_witness :
    (train_indices [0, 0, 1]).filter
        (fun i => decide (([0, 0, 1] : List ℕ).getD i 0 = 0)) =
      (stratum [0, 0, 1] 0).take (train_size (stratum [0, 0, 1] 0).length) ∧
    ((0 ∈ train_indices [0, 0, 1] ∨ 0 ∈ val_indices [0, 0, 1]) ↔
      0 < ([0, 0, 1] : List ℕ).length) :=
  ⟨((C2_split_partition [0, 0, 1]).2.2 0 (by decide)).1,
   (C2_split_partition [0, 0, 1]).2.1 0⟩

/-- C10: the split does not fail on a stratum with fewer than 2 members:
its train cut is floor(0.7 * count) = 0, so it contributes nothing to the
train set and all of its indices (in particular the single index of a
singleton stratum) go to the validation set. -/
theorem C10_degenerate_stratum :
    ∀ (ys : List ℕ) (lab : ℕ), (stratum ys lab).length ≤ 1 →
      train_size (stratum ys lab).length = 0 ∧
      (stratum ys lab).take (train_size (stratum ys lab).length) = [] ∧
      (stratum ys lab).drop (train_size (stratum ys lab).length) =
        stratum ys lab ∧
      (∀ i ∈ stratum ys lab, i ∈ val_indices ys ∧ i ∉ train_indices ys) := by
  intro ys lab hlen
  have h0 : train_size (stratum ys lab).length = 0 := by
    rcases Nat.le_one_iff_eq_zero_or_eq_one.mp hlen with h | h <;>
      rw [h] <;> decide
  refine ⟨h0, by rw [h0]; exact List.take_zero _, by rw [h0]; exact List.drop_zero _, ?_⟩
  intro i hi
  rcases (mem_stratum ys lab i).mp hi with ⟨hilen, hilab⟩
  constructor
  · apply (mem_val_indices ys i).mpr
    refine ⟨hilen, ?_⟩
    rw [hilab, h0]
    simpa using hi
  · intro hT
    rcases (mem_train_indices ys i).mp hT with ⟨_, hTk⟩
    rw [hilab, h0] at hTk
    simp at hTk

/-- Witness for C10 on the singleton label array [5]. -/
theorem C10_degenerate_stratum_witness :
    (stratum [5] 5).take (train_size (stratum [5] 5).length) = [] ∧
    (0 ∈ val_indices [5] ∧ 0 ∉ train_indices [5]) :=
  ⟨(C10_degenerate_stratum [5] 5 (by decide)).2.1,
   (C10_degenerate_stratum [5] 5 (by decide)).2.2.2 0 (by decide)⟩

end SimpleCNN
